import Mathlib

/-!
Verification of the one-hub gateway core against its specification.

The Go sources embedded here are `src/relay/common.go` (channel routing,
retry classification, stream dispatch, error delivery) and
`src/common/hijack/context_response.go` (capture store and stream
aggregation).  Go `map[string]interface{}` values are modelled as
association lists over a `GoVal` inductive; Go map mutation becomes
functional update.  A Go map is unordered, so any association-list
update that realises the same partial function is a faithful model; Go
map iteration order is unspecified, but every range-loop embedded below
writes to pairwise-distinct targets per key, so iterating in list order
is observationally equivalent.
-/

namespace OneHub

/-! ## Association lists modelling Go maps -/

def alistGet? [DecidableEq κ] (l : List (κ × α)) (k : κ) : Option α :=
  (l.find? (fun p => p.1 = k)).map (fun p => p.2)

def alistErase [DecidableEq κ] (l : List (κ × α)) (k : κ) : List (κ × α) :=
  l.filter (fun p => p.1 ≠ k)

def alistSet [DecidableEq κ] (l : List (κ × α)) (k : κ) (v : α) : List (κ × α) :=
  (k, v) :: alistErase l k

def alistKeys (l : List (κ × α)) : List κ :=
  l.map (fun p => p.1)

theorem alistGet?_erase_self [DecidableEq κ] (l : List (κ × α)) (k : κ) :
    alistGet? (alistErase l k) k = none := by
  unfold alistErase alistGet?
  rw [List.find?_filter]
  have hpred : (fun (p : κ × α) => decide ((decide (p.1 ≠ k)) = true ∧ (decide (p.1 = k)) = true))
      = fun _ => false := by
    funext p
    by_cases hp : p.1 = k <;> simp [hp]
  rw [hpred, List.find?_eq_none.mpr (by intro x _; simp)]
  rfl

theorem alistGet?_erase_ne [DecidableEq κ] (l : List (κ × α)) (k k' : κ)
    (h : k' ≠ k) : alistGet? (alistErase l k) k' = alistGet? l k' := by
  unfold alistErase alistGet?
  rw [List.find?_filter]
  have hpred : (fun (p : κ × α) => decide ((decide (p.1 ≠ k)) = true ∧ (decide (p.1 = k')) = true))
      = fun (p : κ × α) => decide (p.1 = k') := by
    funext p
    by_cases hp : p.1 = k' <;> simp [hp, h]
  rw [hpred]

theorem alistGet?_set_self [DecidableEq κ] (l : List (κ × α)) (k : κ) (v : α) :
    alistGet? (alistSet l k v) k = some v := by
  simp [alistSet, alistGet?, List.find?]

theorem alistGet?_set_ne [DecidableEq κ] (l : List (κ × α)) (k k' : κ) (v : α)
    (h : k' ≠ k) : alistGet? (alistSet l k v) k' = alistGet? l k' := by
  unfold alistSet
  rw [show alistGet? ((k, v) :: alistErase l k) k'
      = alistGet? (alistErase l k) k' by simp [alistGet?, List.find?, Ne.symm h]]
  exact alistGet?_erase_ne l k k' h

theorem alistKeys_erase_nodup [DecidableEq κ] (l : List (κ × α)) (k : κ)
    (h : (alistKeys l).Nodup) : (alistKeys (alistErase l k)).Nodup := by
  unfold alistErase alistKeys at *
  exact h.sublist ((List.filter_sublist l).map (fun p => p.1))

theorem alistKeys_set_nodup [DecidableEq κ] (l : List (κ × α)) (k : κ) (v : α)
    (h : (alistKeys l).Nodup) : (alistKeys (alistSet l k v)).Nodup := by
  unfold alistSet
  rw [show alistKeys ((k, v) :: alistErase l k) = k :: alistKeys (alistErase l k) from rfl]
  refine List.nodup_cons.mpr ⟨?_, alistKeys_erase_nodup l k h⟩
  intro hmem
  unfold alistKeys alistErase at hmem
  simp only [List.mem_map, List.mem_filter] at hmem
  obtain ⟨p, ⟨_, hne⟩, hpk⟩ := hmem
  simp [hpk] at hne

theorem alistKeys_count_eq_one [DecidableEq κ] (l : List (κ × α)) (k : κ)
    (hnd : (alistKeys l).Nodup) (hsome : (alistGet? l k).isSome) :
    (alistKeys l).count k = 1 := by
  have hmem : k ∈ alistKeys l := by
    unfold alistGet? at hsome
    rcases hfind : l.find? (fun p => p.1 = k) with _ | p
    · rw [hfind] at hsome; simp at hsome
    · have hpk : p.1 = k := by simpa using List.find?_some hfind
      have hpl : p ∈ l := List.mem_of_find?_eq_some hfind
      exact hpk ▸ List.mem_map_of_mem (fun q => q.1) hpl
  exact List.count_eq_one_of_mem hnd hmem

/-! ## Upstream error values (`types.OpenAIErrorWithStatusCode`) -/

/-- Substring containment, the model of Go `strings.Contains`. -/
def strContains (s sub : String) : Bool :=
  decide (sub.toList <:+: s.toList)

/-- Error payload (`types.OpenAIError`); the Go field `Type` is `ErrType`
here because `Type` is reserved in Lean. -/
structure OpenAIError where
  ErrType : String
  Message : String
deriving DecidableEq, Repr

/-- Classified upstream outcome (`types.OpenAIErrorWithStatusCode`): the
embedded `OpenAIError` plus an HTTP status code and the `LocalError` flag
marking failures that never left the gateway. -/
structure OpenAIErrorWithStatusCode where
  error : OpenAIError
  StatusCode : Nat
  LocalError : Bool
deriving DecidableEq, Repr

/-- Mirrors Go struct embedding: `err.Message` reads the embedded error's
message. -/
def OpenAIErrorWithStatusCode.Message (e : OpenAIErrorWithStatusCode) : String :=
  e.error.Message

/-- Modelled from the spec: `config.ChannelTypeAnthropic` is a numeric
provider-kind constant defined outside `src/`; only its identity matters,
so it is fixed to an arbitrary distinct value. -/
def ChannelTypeAnthropic : Int := 14

/-- Message substring that makes an Anthropic 400 retryable
(`src/relay/common.go` line 303). -/
def orgDisabledSubstring : String := "This organization has been disabled"

/-! ## Retry classifier (`shouldRetry`, src/relay/common.go 267–318) -/

/-- Embedding of `shouldRetry`.  The gin-context reads
`c.GetInt("specific_channel_id")` and `c.GetBool("specific_channel_id_ignore")`
become the first two arguments; the metrics call is effect-free for the
returned boolean and is omitted. -/
def shouldRetry (specificChannelId : Int) (ignore : Bool)
    (apiErr : Option OpenAIErrorWithStatusCode) (channelType : Int) : Bool :=
  match apiErr with
  | none => false
  | some e =>
    if e.LocalError then false
    else if decide (0 < specificChannelId) && !ignore then false
    else if e.StatusCode = 429 then true
    else if e.StatusCode = 307 then true
    else if e.StatusCode / 100 = 5 then
      if e.StatusCode = 504 || e.StatusCode = 524 then false else true
    else if e.StatusCode = 400 then
      if decide (channelType = ChannelTypeAnthropic)
          && strContains e.Message orgDisabledSubstring then true
      else false
    else if e.StatusCode = 408 then false
    else if e.StatusCode / 100 = 2 then false
    else true

/-- The spec's §4.2 retry table written as its own definition, with the one
row the code refutes amended: `any other 4xx` retries (`some true`)
instead of the tabulated `no`.  Rows the table does not cover map to
`none`. -/
def retryTableSpecAmended (pinned localErr : Bool) (status : Nat)
    (orgDisabled400 : Bool) : Option Bool :=
  if pinned then some false
  else if localErr then some false
  else if status = 429 then some true
  else if status = 307 then some true
  else if status / 100 = 5 then
    if status = 504 || status = 524 then some false else some true
  else if status = 400 then some orgDisabled400
  else if status = 408 then some false
  else if status / 100 = 2 then some false
  else if status / 100 = 4 then some true
  else none

/-- C1 is refuted as stated: a 401 outcome (a 4xx other than 400, 408 and
429, unpinned, non-local) makes `shouldRetry` return `true`, where the
spec's table row `any other 4xx | no` demands `false`. -/
theorem shouldRetry_other4xx_counterexample :
    shouldRetry 0 false (some ⟨⟨"", "Unauthorized"⟩, 401, false⟩) 0 = true := by
  decide

/-- C1 amended: for every retry-table row (with `any other 4xx` amended to
retry), `shouldRetry` returns exactly the tabulated boolean: no when the
channel was pinned and the pin is not ignorable, no for local errors, yes
for 429 and 307, yes for 5xx except 504 and 524, for 400 yes exactly on
the Anthropic organization-disabled case, no for 408, no for 2xx, and yes
for any other 4xx. -/
theorem shouldRetry_matches_amended_table (cid : Int) (ign : Bool)
    (e : OpenAIErrorWithStatusCode) (ct : Int) (b : Bool)
    (h : retryTableSpecAmended (decide (0 < cid) && !ign) e.LocalError e.StatusCode
      (decide (ct = ChannelTypeAnthropic) && strContains e.Message orgDisabledSubstring)
      = some b) :
    shouldRetry cid ign (some e) ct = b := by
  unfold retryTableSpecAmended at h
  unfold shouldRetry
  cases hl : e.LocalError <;> by_cases hpin : (decide (0 < cid) && !ign) = true <;>
      simp only [hl, hpin, if_true, if_false, Bool.false_eq_true, Bool.true_eq_false,
        if_pos, if_neg, not_false_eq_true, not_true_eq_false] at h ⊢ <;>
    first
    | (split_ifs at h ⊢ <;> simp_all)
    | simp_all

/-- Concrete instantiation of the amended C1 table theorem: an unpinned,
non-local 429 outcome retries. -/
theorem shouldRetry_matches_amended_table_witness :
    shouldRetry 0 false (some ⟨⟨"", "rate limited"⟩, 429, false⟩) 0 = true :=
  shouldRetry_matches_amended_table 0 false ⟨⟨"", "rate limited"⟩, 429, false⟩ 0 true
    (by decide)

/-! ## Channel registry and router (src/relay/common.go 86–132) -/

/-- Modelled from the spec: `config.ChannelStatusEnabled` is a numeric
status constant defined outside `src/`; only its identity matters. -/
def ChannelStatusEnabled : Int := 1

/-- Channel record (`model.Channel`): numeric id, provider-kind tag
(`ChannelType` here, the Go field is `Type`), enabled/disabled status,
group membership and supported models. -/
structure Channel where
  Id : Int
  ChannelType : Int
  Status : Int
  Groups : List String
  Models : List String
deriving DecidableEq, Repr

/-- Modelled from the spec: `model.GetChannelById` lives in the `model`
package, which is not under `src/`; per §2 the registry exposes channel
lookup, modelled as a scan of the registry by numeric id. -/
def GetChannelById (registry : List Channel) (channelId : Int) : Option Channel :=
  registry.find? (fun ch => ch.Id = channelId)

/-- Embedding of `fetchChannelById` (src/relay/common.go 96–106): pin
lookup fails on an unknown id and on a disabled channel. -/
def fetchChannelById (registry : List Channel) (channelId : Int) :
    Except String Channel :=
  match GetChannelById registry channelId with
  | none => Except.error "无效的渠道 Id"
  | some channel =>
    if channel.Status ≠ ChannelStatusEnabled then Except.error "该渠道已被禁用"
    else Except.ok channel

/-- Result of `model.ChannelGroup.Next` as observed by its caller: a
channel, or an error that may still carry a (stale) channel. -/
inductive NextResult where
  | ok (channel : Channel)
  | errWithChannel (channel : Channel)
  | errNoChannel
deriving DecidableEq, Repr

/-- A channel matching §4.1's registry query: enabled, in the routing
group, declaring support for the model. -/
def channelMatches (group modelName : String) (ch : Channel) : Bool :=
  decide (ch.Status = ChannelStatusEnabled) && ch.Groups.contains group
    && ch.Models.contains modelName

/-- Modelled from the spec: `model.ChannelGroup.Next` is not under `src/`.
Per §4.1 it filters the matching channels (enabled, in group, supporting
the model) through the exclusion filters, picks deterministically from the
eligible set; if the eligible set is empty while matching channels exist
it returns an error together with a non-nil channel (the operator
inconsistency case logged by the caller), and if nothing matches it
returns an error with no channel. -/
def ChannelGroupNext (registry : List Channel) (group modelName : String)
    (skipChannelIds : List Int) : NextResult :=
  let matching := registry.filter (channelMatches group modelName)
  let eligible := matching.filter (fun ch => !(skipChannelIds.contains ch.Id))
  match eligible with
  | ch :: _ => NextResult.ok ch
  | [] =>
    match matching with
    | ch :: _ => NextResult.errWithChannel ch
    | [] => NextResult.errNoChannel

/-- The user-facing no-available-channel message built at
src/relay/common.go line 123. -/
def noChannelMessage (group modelName : String) : String :=
  "当前分组 " ++ group ++ " 下对于模型 " ++ modelName ++ " 无可用渠道"

/-- The operator-consistency message chosen at src/relay/common.go
line 126. -/
def dbConsistencyMessage : String := "数据库一致性已被破坏，请联系管理员"

/-- Embedding of `fetchChannelByModel` (src/relay/common.go 108–132): on a
`Next` error the message is the user-facing one unless `Next` also
returned a non-nil channel, in which case it is the consistency one. -/
def fetchChannelByModel (registry : List Channel) (group modelName : String)
    (skipChannelIds : List Int) : Except String Channel :=
  match ChannelGroupNext registry group modelName skipChannelIds with
  | NextResult.ok channel => Except.ok channel
  | NextResult.errWithChannel _ => Except.error dbConsistencyMessage
  | NextResult.errNoChannel => Except.error (noChannelMessage group modelName)

/-- Embedding of `fetchChannel` (src/relay/common.go 86–94): an effective
pin (positive id, ignore flag unset) short-circuits to the id lookup. -/
def fetchChannel (registry : List Channel) (specificChannelId : Int)
    (ignore : Bool) (group modelName : String) (skipChannelIds : List Int) :
    Except String Channel :=
  if 0 < specificChannelId ∧ ignore = false then
    fetchChannelById registry specificChannelId
  else
    fetchChannelByModel registry group modelName skipChannelIds

/-- C5: channel selection by group and model returns the
operator-consistency error exactly when the post-filter eligible set is
empty while matching channels existed before filtering, and the
user-facing no-available-channel error exactly when nothing matches at
all; the two messages are distinct strings, so the errors are never
swapped. -/
theorem fetchChannelByModel_error_discrimination (registry : List Channel)
    (group modelName : String) (skipChannelIds : List Int) :
    ((registry.filter (channelMatches group modelName)).filter
        (fun ch => !(skipChannelIds.contains ch.Id)) = [] →
      registry.filter (channelMatches group modelName) ≠ [] →
      fetchChannelByModel registry group modelName skipChannelIds
        = Except.error dbConsistencyMessage)
    ∧ (registry.filter (channelMatches group modelName) = [] →
      fetchChannelByModel registry group modelName skipChannelIds
        = Except.error (noChannelMessage group modelName))
    ∧ noChannelMessage group modelName ≠ dbConsistencyMessage := by
  refine ⟨?_, ?_, ?_⟩
  · intro hel hmat
    rcases hm : registry.filter (channelMatches group modelName) with _ | ⟨ch, t⟩
    · exact absurd hm hmat
    · rw [hm] at hel
      simp only [List.elem_eq_mem] at hel
      simp [fetchChannelByModel, ChannelGroupNext, hm, hel]
  · intro hmat
    simp [fetchChannelByModel, ChannelGroupNext, hmat]
  · intro h
    have hdata : (noChannelMessage group modelName).data.head? = some '数' := by
      rw [h]; rfl
    rw [show noChannelMessage group modelName
        = "当前分组 " ++ (group ++ (" 下对于模型 " ++ (modelName ++ " 无可用渠道")))
        from by simp [noChannelMessage, String.append_assoc]] at hdata
    rw [String.data_append] at hdata
    simp [show ("当前分组 ".data) = '当' :: "前分组 ".data from rfl] at hdata

/-- Concrete instantiation of the C5 discrimination theorem: one matching
channel excluded by the filter yields the consistency error; an empty
registry yields the user-facing error. -/
theorem fetchChannelByModel_error_discrimination_witness :
    fetchChannelByModel [⟨1, 0, 1, ["g"], ["m"]⟩] "g" "m" [1]
      = Except.error dbConsistencyMessage
    ∧ fetchChannelByModel [] "g" "m" []
      = Except.error (noChannelMessage "g" "m") :=
  ⟨(fetchChannelByModel_error_discrimination [⟨1, 0, 1, ["g"], ["m"]⟩] "g" "m" [1]).1
      (by decide) (by decide),
    (fetchChannelByModel_error_discrimination [] "g" "m" []).2.1 rfl⟩

/-- C6: with a pinned channel id greater than zero and the ignore-pin flag
false, `fetchChannel` short-circuits to the id lookup, ignoring group,
model and exclusion list; it succeeds exactly when the channel exists and
is enabled and fails otherwise. -/
theorem fetchChannel_pin_short_circuit (registry : List Channel)
    (specificChannelId : Int) (group modelName : String)
    (skipChannelIds : List Int) (hpos : 0 < specificChannelId) :
    fetchChannel registry specificChannelId false group modelName skipChannelIds
      = fetchChannelById registry specificChannelId
    ∧ (∀ ch, GetChannelById registry specificChannelId = some ch →
        ch.Status = ChannelStatusEnabled →
        fetchChannel registry specificChannelId false group modelName skipChannelIds
          = Except.ok ch)
    ∧ (GetChannelById registry specificChannelId = none →
        fetchChannel registry specificChannelId false group modelName skipChannelIds
          = Except.error "无效的渠道 Id")
    ∧ (∀ ch, GetChannelById registry specificChannelId = some ch →
        ch.Status ≠ ChannelStatusEnabled →
        fetchChannel registry specificChannelId false group modelName skipChannelIds
          = Except.error "该渠道已被禁用") := by
  have hsc : fetchChannel registry specificChannelId false group modelName skipChannelIds
      = fetchChannelById registry specificChannelId := by
    unfold fetchChannel
    rw [if_pos ⟨hpos, rfl⟩]
  refine ⟨hsc, ?_, ?_, ?_⟩
  · intro ch hich hst
    rw [hsc]
    unfold fetchChannelById
    rw [hich]
    simp [hst]
  · intro hnone
    rw [hsc]
    unfold fetchChannelById
    rw [hnone]
  · intro ch hich hst
    rw [hsc]
    unfold fetchChannelById
    rw [hich]
    simp [hst]

/-- Concrete instantiation of the C6 pin theorem: a pinned enabled channel
is returned directly even though its group and model do not match the
request. -/
theorem fetchChannel_pin_short_circuit_witness :
    fetchChannel [⟨5, 0, 1, [], []⟩] 5 false "g" "m" []
      = Except.ok ⟨5, 0, 1, [], []⟩ :=
  (fetchChannel_pin_short_circuit [⟨5, 0, 1, [], []⟩] 5 "g" "m" [] (by decide)).2.1
    ⟨5, 0, 1, [], []⟩ (by decide) (by decide)

/-! ## Go `interface{}` values (src/common/hijack/context_response.go)

`GoVal` models the dynamic values flowing through the aggregator:
everything `encoding/json.Unmarshal` can produce plus the Go `int` values
the aggregation code itself writes (`int(index)`).  `num` models JSON
numbers (`float64` in Go), restricted to the integral values the
aggregated protocols carry; `intv` is a Go `int`, distinct from `num`
because Go type assertions distinguish `int` from `float64`. -/

inductive GoVal where
  | null
  | bool (b : Bool)
  | num (n : Int)
  | intv (n : Int)
  | str (s : String)
  | arr (elems : List GoVal)
  | obj (fields : List (String × GoVal))

/-- A Go `map[string]interface{}`. -/
abbrev GoObj := List (String × GoVal)

/-- Go `s, _ := v.(string)` on a map lookup result: the string, or `""`
when the key is absent or the value is not a string. -/
def goStr : Option GoVal → String
  | some (GoVal.str s) => s
  | _ => ""

/-! ### Tool-call fragment merging (context_response.go 703–819) -/

/-- Inner loop body of `mergeToolCall` over the `function` sub-map:
`arguments` concatenates; any other key takes a new non-empty string, and
non-string values always overwrite. -/
def mergeToolCallFuncField (existingFunc : GoObj) (funcKey : String)
    (funcValue : GoVal) : GoObj :=
  if funcKey = "arguments" then
    let existingArgs := goStr (alistGet? existingFunc "arguments")
    let newArgs := match funcValue with
      | GoVal.str s => s
      | _ => ""
    alistSet existingFunc "arguments" (GoVal.str (existingArgs ++ newArgs))
  else
    match funcValue with
    | GoVal.str s =>
      if s ≠ "" then alistSet existingFunc funcKey (GoVal.str s) else existingFunc
    | v => alistSet existingFunc funcKey v

/-- Outer loop body of `mergeToolCall`: the `function` key merges
sub-maps (or is overwritten wholesale when the existing value is not a
map); every other key follows new-non-empty-string-wins with non-string
overwrite. -/
def mergeToolCallField (existing : GoObj) (key : String) (value : GoVal) : GoObj :=
  if key = "function" then
    match alistGet? existing "function" with
    | some (GoVal.obj existingFunc) =>
      match value with
      | GoVal.obj newFunc =>
        alistSet existing "function"
          (GoVal.obj (newFunc.foldl (fun acc p => mergeToolCallFuncField acc p.1 p.2)
            existingFunc))
      | _ => existing
    | _ => alistSet existing "function" value
  else
    match value with
    | GoVal.str s =>
      if s ≠ "" then alistSet existing key (GoVal.str s) else existing
    | v => alistSet existing key v

/-- Embedding of `mergeToolCall` (context_response.go 778–819). -/
def mergeToolCall (existing new : GoObj) : GoObj :=
  new.foldl (fun acc p => mergeToolCallField acc p.1 p.2) existing

/-- Embedding of `processToolCalls` (context_response.go 717–736): each
fragment is routed by its `index` field (`0` when absent, as the failed
`float64` assertion zero-values it; Go would panic on a negative index,
which `Int.toNat` clamps away — no stream in scope carries one), the
slice is padded with empty maps up to the index, then merged in place. -/
def processToolCalls (value : GoVal) (toolCalls : List GoObj) : List GoObj :=
  match value with
  | GoVal.arr newToolCalls =>
    newToolCalls.foldl (fun tcs newToolCall =>
      match newToolCall with
      | GoVal.obj toolCall =>
        let index : Nat :=
          match alistGet? toolCall "index" with
          | some (GoVal.num n) => n.toNat
          | _ => 0
        let padded := tcs ++ List.replicate (index + 1 - tcs.length) []
        padded.set index (mergeToolCall (padded.getD index []) toolCall)
      | _ => tcs) toolCalls
  | _ => toolCalls

/-- Embedding of `processContentField` (context_response.go 739–747):
`content` and `reasoning_content` string deltas concatenate onto the
accumulated value; non-string deltas are dropped. -/
def processContentField (key : String) (value : GoVal) (result : GoObj) : GoObj :=
  match value with
  | GoVal.str content =>
    alistSet result key (GoVal.str (goStr (alistGet? result key) ++ content))
  | _ => result

/-- Embedding of `processDeltaContent` (context_response.go 703–714).
The Go `range` over the delta map has unspecified order; distinct keys
write to distinct targets, so list order is a faithful choice. -/
def processDeltaContent (delta : GoObj) (result : GoObj) (toolCalls : List GoObj) :
    GoObj × List GoObj :=
  delta.foldl (fun acc p =>
    if p.1 = "tool_calls" then (acc.1, processToolCalls p.2 acc.2)
    else if p.1 = "content" ∨ p.1 = "reasoning_content" then
      (processContentField p.1 p.2 acc.1, acc.2)
    else (alistSet acc.1 p.1 p.2, acc.2)) (result, toolCalls)

/-! ### Stream-format processors (context_response.go 270–495) -/

/-- Embedding of `extractTopLevelFields` (context_response.go 489–495):
copy the named fields that are present and non-nil. -/
def extractTopLevelFields (source target : GoObj) (fields : List String) : GoObj :=
  fields.foldl (fun tgt field =>
    match alistGet? source field with
    | none => tgt
    | some GoVal.null => tgt
    | some v => alistSet tgt field v) target

/-- The three mutable maps threaded through one aggregation pass:
`fullResponse` (top-level metadata), `mergedContent` (the single merged
choice), and the indexed `toolCalls` slice. -/
structure AggState where
  fullResponse : GoObj
  mergedContent : GoObj
  toolCalls : List GoObj

/-- Embedding of `processOpenAIStreamFormat` (context_response.go
312–352).  Mutations made before a `false` return (top-level fields,
usage, finish_reason, index) persist, exactly as the Go in-place map
writes do. -/
def processOpenAIStreamFormat (jsonResponse : GoObj) (st : AggState) :
    Bool × AggState :=
  let fullResponse := extractTopLevelFields jsonResponse st.fullResponse
    ["id", "object", "created", "model", "system_fingerprint", "service_tier"]
  let usagePair : GoObj × Bool :=
    match alistGet? jsonResponse "usage" with
    | some (GoVal.obj usage) => (alistSet fullResponse "usage" (GoVal.obj usage), true)
    | _ => (fullResponse, false)
  let fullResponse := usagePair.1
  let hasUsage := usagePair.2
  match alistGet? jsonResponse "choices" with
  | some (GoVal.arr (choice0 :: _)) =>
    match choice0 with
    | GoVal.obj choice =>
      let mergedContent :=
        match alistGet? choice "finish_reason" with
        | some (GoVal.str fr) =>
          if fr ≠ "" then alistSet st.mergedContent "finish_reason" (GoVal.str fr)
          else st.mergedContent
        | _ => st.mergedContent
      let mergedContent :=
        match alistGet? choice "index" with
        | some (GoVal.num n) => alistSet mergedContent "index" (GoVal.intv n)
        | _ => mergedContent
      match alistGet? choice "delta" with
      | some (GoVal.obj delta) =>
        let merged := processDeltaContent delta mergedContent st.toolCalls
        (true, ⟨fullResponse, merged.1, merged.2⟩)
      | _ => (false, ⟨fullResponse, mergedContent, st.toolCalls⟩)
    | _ => (false, ⟨fullResponse, st.mergedContent, st.toolCalls⟩)
  | _ => (hasUsage, ⟨fullResponse, st.mergedContent, st.toolCalls⟩)

/-- Embedding of `processClaudeStreamFormat` (context_response.go
355–442). -/
def processClaudeStreamFormat (jsonResponse : GoObj) (st : AggState) :
    Bool × AggState :=
  match alistGet? jsonResponse "type" with
  | some (GoVal.str eventType) =>
    if eventType = "message_start" then
      match alistGet? jsonResponse "message" with
      | some (GoVal.obj message) =>
        let fullResponse := extractTopLevelFields message st.fullResponse
          ["id", "type", "role", "model", "stop_reason", "stop_sequence"]
        let mergedContent :=
          match alistGet? message "role" with
          | some (GoVal.str role) => alistSet st.mergedContent "role" (GoVal.str role)
          | _ => st.mergedContent
        let fullResponse :=
          match alistGet? message "usage" with
          | some (GoVal.obj usage) => alistSet fullResponse "usage" (GoVal.obj usage)
          | _ => fullResponse
        (true, ⟨fullResponse, mergedContent, st.toolCalls⟩)
      | _ => (true, st)
    else if eventType = "content_block_delta" then
      match alistGet? jsonResponse "delta" with
      | some (GoVal.obj delta) =>
        let deltaType := goStr (alistGet? delta "type")
        if deltaType = "text_delta" then
          match alistGet? delta "text" with
          | some (GoVal.str text) =>
            (true, ⟨st.fullResponse,
              alistSet st.mergedContent "content"
                (GoVal.str (goStr (alistGet? st.mergedContent "content") ++ text)),
              st.toolCalls⟩)
          | _ => (true, st)
        else if deltaType = "thinking_delta" then
          match alistGet? delta "thinking" with
          | some (GoVal.str thinking) =>
            (true, ⟨st.fullResponse,
              alistSet st.mergedContent "thinking"
                (GoVal.str (goStr (alistGet? st.mergedContent "thinking") ++ thinking)),
              st.toolCalls⟩)
          | _ => (true, st)
        else if deltaType = "input_json_delta" then
          match alistGet? delta "partial_json" with
          | some (GoVal.str partialJson) =>
            match st.toolCalls.getLast? with
            | some lastToolCall =>
              let updated := alistSet lastToolCall "arguments"
                (GoVal.str (goStr (alistGet? lastToolCall "arguments") ++ partialJson))
              (true, ⟨st.fullResponse, st.mergedContent, st.toolCalls.dropLast ++ [updated]⟩)
            | none => (true, st)
          | _ => (true, st)
        else (true, st)
      | _ => (true, st)
    else if eventType = "content_block_start" then
      match alistGet? jsonResponse "content_block" with
      | some (GoVal.obj contentBlock) =>
        if goStr (alistGet? contentBlock "type") = "tool_use" then
          let toolCall : GoObj := []
          let toolCall :=
            match alistGet? contentBlock "id" with
            | some (GoVal.str id) => alistSet toolCall "id" (GoVal.str id)
            | _ => toolCall
          let toolCall :=
            match alistGet? contentBlock "name" with
            | some (GoVal.str name) => alistSet toolCall "name" (GoVal.str name)
            | _ => toolCall
          let toolCall := alistSet toolCall "arguments" (GoVal.str "")
          (true, ⟨st.fullResponse, st.mergedContent, st.toolCalls ++ [toolCall]⟩)
        else (true, st)
      | _ => (true, st)
    else if eventType = "message_delta" then
      let st1 :=
        match alistGet? jsonResponse "delta" with
        | some (GoVal.obj delta) =>
          match alistGet? delta "stop_reason" with
          | some (GoVal.str stopReason) =>
            (⟨alistSet st.fullResponse "stop_reason" (GoVal.str stopReason),
              alistSet st.mergedContent "stop_reason" (GoVal.str stopReason),
              st.toolCalls⟩ : AggState)
          | _ => st
        | _ => st
      let st2 :=
        match alistGet? jsonResponse "usage" with
        | some (GoVal.obj usage) =>
          match alistGet? st1.fullResponse "usage" with
          | some (GoVal.obj existingUsage) =>
            (⟨alistSet st1.fullResponse "usage"
                (GoVal.obj (usage.foldl (fun acc p => alistSet acc p.1 p.2) existingUsage)),
              st1.mergedContent, st1.toolCalls⟩ : AggState)
          | _ =>
            (⟨alistSet st1.fullResponse "usage" (GoVal.obj usage),
              st1.mergedContent, st1.toolCalls⟩ : AggState)
        | _ => st1
      (true, st2)
    else (false, st)
  | _ => (false, st)

/-- Embedding of `processGeminiContent` (context_response.go 750–776). -/
def processGeminiContent (content : GoObj) (result : GoObj) : GoObj :=
  let result :=
    match alistGet? content "role" with
    | some (GoVal.str role) => alistSet result "role" (GoVal.str role)
    | _ => result
  match alistGet? content "parts" with
  | some (GoVal.arr parts) =>
    parts.foldl (fun res part =>
      match part with
      | GoVal.obj partMap =>
        match alistGet? partMap "text" with
        | some (GoVal.str text) =>
          alistSet res "content" (GoVal.str (goStr (alistGet? res "content") ++ text))
        | _ => res
      | _ => res) result
  | _ => result

/-- Embedding of `processGeminiStreamFormat` (context_response.go
445–486). -/
def processGeminiStreamFormat (jsonResponse : GoObj) (st : AggState) :
    Bool × AggState :=
  match alistGet? jsonResponse "candidates" with
  | some (GoVal.arr (cand0 :: _)) =>
    let fullResponse := extractTopLevelFields jsonResponse st.fullResponse ["modelVersion"]
    let fullResponse :=
      match alistGet? jsonResponse "usageMetadata" with
      | some (GoVal.obj um) => alistSet fullResponse "usageMetadata" (GoVal.obj um)
      | _ => fullResponse
    match cand0 with
    | GoVal.obj candidate =>
      let mergedContent :=
        match alistGet? candidate "finishReason" with
        | some (GoVal.str fr) =>
          if fr ≠ "" then alistSet st.mergedContent "finish_reason" (GoVal.str fr)
          else st.mergedContent
        | _ => st.mergedContent
      let mergedContent :=
        match alistGet? candidate "index" with
        | some (GoVal.num n) => alistSet mergedContent "index" (GoVal.intv n)
        | _ => mergedContent
      let fullResponse :=
        match alistGet? candidate "safetyRatings" with
        | some (GoVal.arr sr) => alistSet fullResponse "safetyRatings" (GoVal.arr sr)
        | _ => fullResponse
      match alistGet? candidate "content" with
      | some (GoVal.obj content) =>
        (true, ⟨fullResponse, processGeminiContent content mergedContent, st.toolCalls⟩)
      | _ => (false, ⟨fullResponse, mergedContent, st.toolCalls⟩)
    | _ => (false, ⟨fullResponse, st.mergedContent, st.toolCalls⟩)
  | _ => (false, st)

/-! ### Thinking merge and final response builders -/

/-- Embedding of `formatContentWithThinking` (context_response.go 14–19). -/
def formatContentWithThinking (content thinking : String) : String :=
  if thinking ≠ "" then "<thinking>" ++ thinking ++ "</thinking>\n\n" ++ content
  else content

/-- Embedding of `mergeThinkingToContent` (context_response.go 23–43):
a non-empty `thinking` (Claude) or `reasoning_content` (DeepSeek) string
is removed from its own field and prefixed, delimiter-wrapped, onto
`content`. -/
def mergeThinkingToContent (result : GoObj) : GoObj :=
  let pass1 : String × GoObj :=
    match alistGet? result "thinking" with
    | some (GoVal.str t) =>
      if t ≠ "" then (t, alistErase result "thinking") else ("", result)
    | _ => ("", result)
  let pass2 : String × GoObj :=
    match alistGet? pass1.2 "reasoning_content" with
    | some (GoVal.str rc) =>
      if rc ≠ "" then (rc, alistErase pass1.2 "reasoning_content") else pass1
    | _ => pass1
  let thinking := pass2.1
  let result := pass2.2
  if thinking ≠ "" then
    alistSet result "content"
      (GoVal.str (formatContentWithThinking (goStr (alistGet? result "content")) thinking))
  else result

/-- Embedding of `buildOpenAIResponse` (context_response.go 516–565). -/
def buildOpenAIResponse (fullResponse mergedContent : GoObj)
    (toolCalls : List GoObj) : GoObj :=
  let message : GoObj :=
    match alistGet? mergedContent "role" with
    | some (GoVal.str role) => alistSet [] "role" (GoVal.str role)
    | _ => alistSet [] "role" (GoVal.str "assistant")
  let message :=
    match alistGet? mergedContent "content" with
    | some (GoVal.str content) => alistSet message "content" (GoVal.str content)
    | _ => message
  let message :=
    match alistGet? mergedContent "refusal" with
    | some refusal => alistSet message "refusal" refusal
    | none => message
  let message :=
    if toolCalls.isEmpty then message
    else alistSet message "tool_calls" (GoVal.arr (toolCalls.map GoVal.obj))
  let choice : GoObj := alistSet [] "message" (GoVal.obj message)
  let choice :=
    match alistGet? mergedContent "index" with
    | some (GoVal.intv n) => alistSet choice "index" (GoVal.intv n)
    | _ => alistSet choice "index" (GoVal.intv 0)
  let choice :=
    match alistGet? mergedContent "finish_reason" with
    | some (GoVal.str fr) => alistSet choice "finish_reason" (GoVal.str fr)
    | _ => choice
  let choice :=
    match alistGet? mergedContent "logprobs" with
    | some lp => alistSet choice "logprobs" lp
    | none => choice
  let result := alistSet fullResponse "choices" (GoVal.arr [GoVal.obj choice])
  match alistGet? result "object" with
  | some _ => result
  | none => alistSet result "object" (GoVal.str "chat.completion")

/-- Embedding of `buildClaudeResponse` (context_response.go 568–624).
`unmarshalArgs` stands for the Go-library `json.Unmarshal` applied to the
accumulated tool arguments: `some v` for a successful parse, `none` for a
parse error (in which case the raw string is kept). -/
def buildClaudeResponse (unmarshalArgs : String → Option GoVal)
    (fullResponse mergedContent : GoObj) (toolCalls : List GoObj) : GoObj :=
  let contentArr : List GoVal :=
    match alistGet? mergedContent "content" with
    | some (GoVal.str content) =>
      if content ≠ "" then
        [GoVal.obj (alistSet (alistSet [] "type" (GoVal.str "text")) "text"
          (GoVal.str content))]
      else []
    | _ => []
  let contentArr := contentArr ++ toolCalls.map (fun toolCall =>
    let toolUse : GoObj := alistSet [] "type" (GoVal.str "tool_use")
    let toolUse :=
      match alistGet? toolCall "id" with
      | some (GoVal.str id) => alistSet toolUse "id" (GoVal.str id)
      | _ => toolUse
    let toolUse :=
      match alistGet? toolCall "name" with
      | some (GoVal.str name) => alistSet toolUse "name" (GoVal.str name)
      | _ => toolUse
    let toolUse :=
      match alistGet? toolCall "arguments" with
      | some (GoVal.str args) =>
        match unmarshalArgs args with
        | some input => alistSet toolUse "input" input
        | none => alistSet toolUse "input" (GoVal.str args)
      | _ => toolUse
    GoVal.obj toolUse)
  let result := alistSet fullResponse "content" (GoVal.arr contentArr)
  let result :=
    match alistGet? result "type" with
    | some _ => result
    | none => alistSet result "type" (GoVal.str "message")
  match alistGet? mergedContent "role" with
  | some (GoVal.str role) => alistSet result "role" (GoVal.str role)
  | _ => alistSet result "role" (GoVal.str "assistant")

/-- Embedding of `buildGeminiResponse` (context_response.go 627–672). -/
def buildGeminiResponse (fullResponse mergedContent : GoObj) : GoObj :=
  let content : GoObj :=
    match alistGet? mergedContent "role" with
    | some (GoVal.str role) => alistSet [] "role" (GoVal.str role)
    | _ => alistSet [] "role" (GoVal.str "model")
  let parts : List GoVal :=
    match alistGet? mergedContent "content" with
    | some (GoVal.str text) =>
      if text ≠ "" then [GoVal.obj (alistSet [] "text" (GoVal.str text))] else []
    | _ => []
  let content := alistSet content "parts" (GoVal.arr parts)
  let candidate : GoObj := alistSet [] "content" (GoVal.obj content)
  let candidate :=
    match alistGet? mergedContent "index" with
    | some (GoVal.intv n) => alistSet candidate "index" (GoVal.intv n)
    | _ => alistSet candidate "index" (GoVal.intv 0)
  let candidate :=
    match alistGet? mergedContent "finish_reason" with
    | some (GoVal.str fr) => alistSet candidate "finishReason" (GoVal.str fr)
    | _ => candidate
  let pair : GoObj × GoObj :=
    match alistGet? fullResponse "safetyRatings" with
    | some sr => (alistSet candidate "safetyRatings" sr, alistErase fullResponse "safetyRatings")
    | none => (candidate, fullResponse)
  alistSet pair.2 "candidates" (GoVal.arr [GoVal.obj pair.1])

/-- Embedding of `buildFinalStreamResponse` (context_response.go
498–513). -/
def buildFinalStreamResponse (unmarshalArgs : String → Option GoVal)
    (format : String) (fullResponse mergedContent : GoObj)
    (toolCalls : List GoObj) : GoVal :=
  if format = "openai" then
    GoVal.obj (buildOpenAIResponse fullResponse mergedContent toolCalls)
  else if format = "claude" then
    GoVal.obj (buildClaudeResponse unmarshalArgs fullResponse mergedContent toolCalls)
  else if format = "gemini" then
    GoVal.obj (buildGeminiResponse fullResponse mergedContent)
  else if toolCalls.isEmpty then GoVal.obj mergedContent
  else
    GoVal.obj (alistSet mergedContent "tool_calls" (GoVal.arr (toolCalls.map GoVal.obj)))

/-- Embedding of `extractFinalStreamContent` (context_response.go
270–309).  The input is the list of JSON fragments `parseStreamLine`
extracted from the transcript (SSE `data: ` prefixes stripped, `[DONE]`
markers, blank lines and unparsable lines already dropped — the JSON text
decoding itself is Go-library behavior); each fragment is tried against
the OpenAI, then Claude, then Gemini shape, and the last matching shape
names the format used to rebuild a non-streaming response. -/
def extractFinalStreamContent (unmarshalArgs : String → Option GoVal)
    (frames : List GoObj) : GoVal :=
  let step := fun (acc : AggState × String) (jsonResponse : GoObj) =>
    let stA := processOpenAIStreamFormat jsonResponse acc.1
    if stA.1 then (stA.2, "openai")
    else
      let stB := processClaudeStreamFormat jsonResponse stA.2
      if stB.1 then (stB.2, "claude")
      else
        let stC := processGeminiStreamFormat jsonResponse stB.2
        if stC.1 then (stC.2, "gemini")
        else (stC.2, acc.2)
  let final := frames.foldl step (⟨[], [], []⟩, "")
  let mergedContent := mergeThinkingToContent final.1.mergedContent
  buildFinalStreamResponse unmarshalArgs final.2 final.1.fullResponse mergedContent
    final.1.toolCalls

/-! ### List padding lemmas for the indexed tool-call slice -/

theorem list_getD_replicate (n : Nat) (x d : α) :
    (List.replicate (n + 1) x).getD n d = x := by
  induction n with
  | zero => rfl
  | succ m ih => simpa [List.replicate] using ih

theorem list_set_replicate (n : Nat) (x z : α) :
    (List.replicate (n + 1) x).set n z = List.replicate n x ++ [z] := by
  induction n with
  | zero => rfl
  | succ m ih =>
    simp only [List.replicate_succ] at ih ⊢
    simp [ih]

theorem list_getD_replicate_append (n : Nat) (x m d : α) :
    (List.replicate n x ++ [m]).getD n d = m := by
  induction n with
  | zero => rfl
  | succ k ih => simp [List.replicate_succ, ih]

theorem list_set_replicate_append (n : Nat) (x m z : α) :
    (List.replicate n x ++ [m]).set n z = List.replicate n x ++ [z] := by
  induction n with
  | zero => rfl
  | succ k ih =>
    simp only [List.replicate_succ] at ih ⊢
    simp [ih]

/-! ### Tool-call fragment streams

A streamed tool-call delta carries `tool_calls: [fragment]`; the
aggregator feeds each such array to `processToolCalls` in arrival
order. -/

/-- A pure arguments fragment for the tool call at `index`: what a
provider emits when the arguments string is split and this piece is not
the first. -/
def toolCallFragment (index : Nat) (args : String) : GoVal :=
  GoVal.obj [("index", GoVal.num index),
    ("function", GoVal.obj [("arguments", GoVal.str args)])]

/-- Aggregation of a stream of single-fragment `tool_calls` arrays,
starting from the empty slice, exactly as `processDeltaContent` invokes
`processToolCalls` once per frame. -/
def aggToolCallStream (frags : List GoVal) : List GoObj :=
  frags.foldl (fun acc f => processToolCalls (GoVal.arr [f]) acc) []

/-- The slice state after aggregating arguments `args` at `index`: empty
maps below the index, then the merged fragment map. -/
def toolCallStateFor (index : Nat) (args : String) : List GoObj :=
  List.replicate index [] ++
    [[("function", GoVal.obj [("arguments", GoVal.str args)]),
      ("index", GoVal.num index)]]

theorem processToolCalls_first (n : Nat) (s : String) :
    processToolCalls (GoVal.arr [toolCallFragment n s]) [] = toolCallStateFor n s := by
  show (List.replicate (n + 1) ([] : GoObj)).set n
      (mergeToolCall ((List.replicate (n + 1) ([] : GoObj)).getD n [])
        [("index", GoVal.num n), ("function", GoVal.obj [("arguments", GoVal.str s)])])
    = toolCallStateFor n s
  rw [list_getD_replicate, list_set_replicate]
  rfl

theorem processToolCalls_step (n : Nat) (s q : String) :
    processToolCalls (GoVal.arr [toolCallFragment n q]) (toolCallStateFor n s)
      = toolCallStateFor n (s ++ q) := by
  have hlen : (toolCallStateFor n s).length = n + 1 := by
    simp [toolCallStateFor]
  show (toolCallStateFor n s
        ++ List.replicate (n + 1 - (toolCallStateFor n s).length) []).set n
      (mergeToolCall
        ((toolCallStateFor n s
          ++ List.replicate (n + 1 - (toolCallStateFor n s).length) []).getD n [])
        [("index", GoVal.num n), ("function", GoVal.obj [("arguments", GoVal.str q)])])
    = toolCallStateFor n (s ++ q)
  rw [hlen, Nat.sub_self, List.replicate_zero, List.append_nil]
  unfold toolCallStateFor
  rw [list_getD_replicate_append, list_set_replicate_append]
  rfl

theorem aggToolCallStream_extend (n : Nat) (s : String) (ps : List String) :
    List.foldl (fun acc f => processToolCalls (GoVal.arr [f]) acc)
      (toolCallStateFor n s) (ps.map (toolCallFragment n))
      = toolCallStateFor n (ps.foldl (fun a b => a ++ b) s) := by
  induction ps generalizing s with
  | nil => rfl
  | cons q qs ih =>
    rw [List.map_cons, List.foldl_cons, List.foldl_cons]
    rw [show processToolCalls (GoVal.arr [toolCallFragment n q]) (toolCallStateFor n s)
        = toolCallStateFor n (s ++ q) from processToolCalls_step n s q]
    exact ih (s ++ q)

/-- First fragment of end-to-end scenario B: id `"a"`, name `"f"` and the
first half of the split arguments string. -/
def scenarioBFrag1 : GoVal := GoVal.obj [("id", GoVal.str "a"),
  ("function", GoVal.obj [("name", GoVal.str "f"), ("arguments", GoVal.str "\x7b\"x\":")])]

/-- Second fragment of end-to-end scenario B: only the remaining half of
the arguments string. -/
def scenarioBFrag2 : GoVal :=
  GoVal.obj [("function", GoVal.obj [("arguments", GoVal.str "1\x7d")])]

/-- C2: a tool-call arguments string delivered as successive fragments at
one index, split at arbitrary boundaries, aggregates to exactly the state
a single unsplit fragment produces (the piece list concatenated in
arrival order); and the two fragments of scenario B aggregate to one tool
call with id `"a"`, name `"f"` and the rejoined arguments string. -/
theorem toolCall_fragment_aggregation (n : Nat) (p : String) (ps : List String) :
    (aggToolCallStream ((p :: ps).map (toolCallFragment n))
      = aggToolCallStream [toolCallFragment n (String.join (p :: ps))])
    ∧ (∃ tc fn, aggToolCallStream [scenarioBFrag1, scenarioBFrag2] = [tc]
        ∧ alistGet? tc "id" = some (GoVal.str "a")
        ∧ alistGet? tc "function" = some (GoVal.obj fn)
        ∧ alistGet? fn "name" = some (GoVal.str "f")
        ∧ alistGet? fn "arguments" = some (GoVal.str "\x7b\"x\":1\x7d")) := by
  constructor
  · rw [show aggToolCallStream ((p :: ps).map (toolCallFragment n))
        = List.foldl (fun acc f => processToolCalls (GoVal.arr [f]) acc)
          (processToolCalls (GoVal.arr [toolCallFragment n p]) [])
          (ps.map (toolCallFragment n)) from rfl]
    rw [processToolCalls_first, aggToolCallStream_extend]
    rw [show aggToolCallStream [toolCallFragment n (String.join (p :: ps))]
        = processToolCalls (GoVal.arr [toolCallFragment n (String.join (p :: ps))]) []
        from rfl]
    rw [processToolCalls_first]
    rfl
  · exact ⟨_, _, rfl, rfl, rfl, rfl, rfl⟩

/-- The three streamed frames of end-to-end scenario A, already parsed
from their SSE lines. -/
def scenarioAFrames : List GoObj :=
  [[("choices", GoVal.arr [GoVal.obj [("delta", GoVal.obj [("content", GoVal.str "Hel")])]])],
   [("choices", GoVal.arr [GoVal.obj [("delta", GoVal.obj [("content", GoVal.str "lo")])]])],
   [("choices", GoVal.arr [GoVal.obj [("delta", GoVal.obj [("finish_reason", GoVal.str "stop")])]])]]

/-- C3: aggregating the three frames of scenario A yields a canonical
response with a single choice whose message content is `"Hello"` and
whose finish_reason is `"stop"` (for any model of the library JSON
decoder, which the OpenAI path never invokes). -/
theorem extractFinalStreamContent_scenarioA (unmarshalArgs : String → Option GoVal) :
    ∃ fields choice message,
      extractFinalStreamContent unmarshalArgs scenarioAFrames = GoVal.obj fields
      ∧ alistGet? fields "choices" = some (GoVal.arr [GoVal.obj choice])
      ∧ alistGet? choice "message" = some (GoVal.obj message)
      ∧ alistGet? message "content" = some (GoVal.str "Hello")
      ∧ alistGet? choice "finish_reason" = some (GoVal.str "stop") :=
  ⟨_, _, _, rfl, rfl, rfl, rfl, rfl⟩

/-- C4: when a reasoning channel has accumulated a non-empty string in
`thinking` (Claude) or `reasoning_content` (DeepSeek) — the two mutually
exclusive reasoning fields — the merged object holds exactly one
`content` field carrying the delimiter-wrapped reasoning text prefixed
onto the main text, and neither reasoning field survives. -/
theorem mergeThinkingToContent_single_content (m : GoObj) (t : String)
    (hnd : (alistKeys m).Nodup)
    (hch : (alistGet? m "thinking" = some (GoVal.str t) ∧ t ≠ ""
        ∧ alistGet? m "reasoning_content" = none)
      ∨ (alistGet? m "thinking" = none
        ∧ alistGet? m "reasoning_content" = some (GoVal.str t) ∧ t ≠ "")) :
    alistGet? (mergeThinkingToContent m) "thinking" = none
    ∧ alistGet? (mergeThinkingToContent m) "reasoning_content" = none
    ∧ alistGet? (mergeThinkingToContent m) "content"
      = some (GoVal.str (formatContentWithThinking (goStr (alistGet? m "content")) t))
    ∧ (alistKeys (mergeThinkingToContent m)).count "content" = 1 := by
  rcases hch with ⟨hth, hne, hrc⟩ | ⟨hth, hrc, hne⟩
  · have hrc2 : alistGet? (alistErase m "thinking") "reasoning_content" = none := by
      rw [alistGet?_erase_ne m "thinking" "reasoning_content" (by decide)]
      exact hrc
    have hm : mergeThinkingToContent m
        = alistSet (alistErase m "thinking") "content"
          (GoVal.str (formatContentWithThinking
            (goStr (alistGet? (alistErase m "thinking") "content")) t)) := by
      unfold mergeThinkingToContent
      rw [hth]
      simp only [if_pos hne, hrc2, if_pos hne]
    rw [hm]
    refine ⟨?_, ?_, ?_, ?_⟩
    · rw [alistGet?_set_ne _ _ _ _ (by decide), alistGet?_erase_self]
    · rw [alistGet?_set_ne _ _ _ _ (by decide)]
      exact hrc2
    · rw [alistGet?_set_self,
        alistGet?_erase_ne m "thinking" "content" (by decide)]
    · exact alistKeys_count_eq_one _ _
        (alistKeys_set_nodup _ _ _ (alistKeys_erase_nodup _ _ hnd))
        (by rw [alistGet?_set_self]; rfl)
  · have hm : mergeThinkingToContent m
        = alistSet (alistErase m "reasoning_content") "content"
          (GoVal.str (formatContentWithThinking
            (goStr (alistGet? (alistErase m "reasoning_content") "content")) t)) := by
      unfold mergeThinkingToContent
      rw [hth]
      simp only [hrc, if_pos hne]
    rw [hm]
    refine ⟨?_, ?_, ?_, ?_⟩
    · rw [alistGet?_set_ne _ _ _ _ (by decide),
        alistGet?_erase_ne m "reasoning_content" "thinking" (by decide)]
      exact hth
    · rw [alistGet?_set_ne _ _ _ _ (by decide), alistGet?_erase_self]
    · rw [alistGet?_set_self,
        alistGet?_erase_ne m "reasoning_content" "content" (by decide)]
    · exact alistKeys_count_eq_one _ _
        (alistKeys_set_nodup _ _ _ (alistKeys_erase_nodup _ _ hnd))
        (by rw [alistGet?_set_self]; rfl)

/-- Concrete instantiation of the C4 merge theorem: accumulated thinking
`"T"` over content `"C"` merges to the single delimited content field
with no residual `thinking`. -/
theorem mergeThinkingToContent_single_content_witness :
    alistGet? (mergeThinkingToContent
        [("thinking", GoVal.str "T"), ("content", GoVal.str "C")]) "thinking" = none
    ∧ alistGet? (mergeThinkingToContent
        [("thinking", GoVal.str "T"), ("content", GoVal.str "C")]) "content"
      = some (GoVal.str "<thinking>T</thinking>\n\nC") := by
  have H := mergeThinkingToContent_single_content
    [("thinking", GoVal.str "T"), ("content", GoVal.str "C")] "T"
    (by decide) (Or.inl ⟨rfl, by decide, rfl⟩)
  exact ⟨H.1, by rw [H.2.2.1]; rfl⟩

/-! ## Streamed delivery (`responseStreamClient`, src/relay/common.go
153–189)

The Go consumer selects over a data channel and an error channel; the
transcript-order model below is the sequence of data frames followed by
the one terminal signal, which is exactly the order the single consumer
task observes. -/

/-- Terminal signal on the error channel: plain end-of-stream (`io.EOF`)
or a genuine error carrying its message text. -/
inductive StreamTerminal where
  | eof
  | err (msg : String)

/-- Modelled from the spec: `relay_util.ChatCacheProps` is not under
`src/`.  Per §4.3 the dispatcher appends forwarded text to a growing
captured transcript (`SetResponse`) and can mark the transcript
do-not-cache (`NoCache`). -/
structure ChatCacheProps where
  responses : List String
  noCache : Bool

def ChatCacheProps.SetResponse (c : ChatCacheProps) (data : String) : ChatCacheProps :=
  ⟨c.responses ++ [data], c.noCache⟩

def ChatCacheProps.NoCache (c : ChatCacheProps) : ChatCacheProps :=
  ⟨c.responses, true⟩

/-- Go `type StreamEndHandler func() string`. -/
def StreamEndHandler := Unit → String

/-- What one streamed delivery produced: the texts written to the caller
in order, the final cache state, and the closure-captured `errWithOP`
(the stream-error message when the terminal signal was a genuine
error). -/
structure StreamClientOutput where
  written : List String
  cache : ChatCacheProps
  errWithOP : Option String

/-- The data-channel loop of `responseStreamClient` (lines 158–164): each
frame is SSE-wrapped, written, and the identical wrapped text appended to
the cache. -/
def streamWriteFrames (frames : List String) (written : List String)
    (cache : ChatCacheProps) : List String × ChatCacheProps :=
  match frames with
  | [] => (written, cache)
  | data :: rest =>
    let streamData := "data: " ++ data ++ "\n\n"
    streamWriteFrames rest (written ++ [streamData]) (cache.SetResponse streamData)

/-- Embedding of `responseStreamClient` (src/relay/common.go 153–189):
frames are forwarded and cached in arrival order; a genuine terminal
error writes a best-effort error frame (not cached), records
`errWithOP` and marks the cache do-not-cache; the finalizer trailer is
emitted only when no error was recorded and is cached unwrapped (the Go
code caches `streamData`, not the wrapped form, at line 177); finally the
`data: [DONE]` marker is written and cached. -/
def responseStreamClient (frames : List String) (terminal : StreamTerminal)
    (endHandler : Option StreamEndHandler) (cache : ChatCacheProps) :
    StreamClientOutput :=
  let loop := streamWriteFrames frames [] cache
  let st : StreamClientOutput :=
    match terminal with
    | StreamTerminal.err msg =>
      ⟨loop.1 ++ ["data: " ++ msg ++ "\n\n"], loop.2.NoCache, some msg⟩
    | StreamTerminal.eof => ⟨loop.1, loop.2, none⟩
  let st : StreamClientOutput :=
    match st.errWithOP, endHandler with
    | none, some handler =>
      let streamData := handler ()
      if streamData ≠ "" then
        ⟨st.written ++ ["data: " ++ streamData ++ "\n\n"],
          st.cache.SetResponse streamData, st.errWithOP⟩
      else st
    | _, _ => st
  ⟨st.written ++ ["data: [DONE]\n\n"], st.cache.SetResponse "data: [DONE]\n\n",
    st.errWithOP⟩

theorem streamWriteFrames_spec (frames : List String) (w : List String)
    (c : ChatCacheProps) :
    streamWriteFrames frames w c
      = (w ++ frames.map (fun d => "data: " ++ d ++ "\n\n"),
        ⟨c.responses ++ frames.map (fun d => "data: " ++ d ++ "\n\n"), c.noCache⟩) := by
  induction frames generalizing w c with
  | nil => simp [streamWriteFrames]
  | cons d rest ih =>
    rw [streamWriteFrames, ih]
    simp [ChatCacheProps.SetResponse]

/-- C7: in streamed delivery, a genuine terminal error marks the
transcript do-not-cache and suppresses the finalizer trailer (the output
equals the no-finalizer output); on plain end-of-stream a non-empty
trailer is forwarded (SSE-wrapped) and appended to the transcript,
followed by the `data: [DONE]` marker; and every ordinary frame is
forwarded SSE-wrapped with the identical wrapped text appended to the
transcript in arrival order. -/
theorem responseStreamClient_spec (frames : List String) (msg : String)
    (h : StreamEndHandler) (c : ChatCacheProps) :
    ((responseStreamClient frames (StreamTerminal.err msg) (some h) c).cache.noCache = true
      ∧ responseStreamClient frames (StreamTerminal.err msg) (some h) c
        = responseStreamClient frames (StreamTerminal.err msg) none c
      ∧ (responseStreamClient frames (StreamTerminal.err msg) (some h) c).written
        = frames.map (fun d => "data: " ++ d ++ "\n\n")
          ++ ["data: " ++ msg ++ "\n\n", "data: [DONE]\n\n"]
      ∧ (responseStreamClient frames (StreamTerminal.err msg) (some h) c).cache.responses
        = c.responses ++ frames.map (fun d => "data: " ++ d ++ "\n\n")
          ++ ["data: [DONE]\n\n"])
    ∧ (h () ≠ "" →
      (responseStreamClient frames StreamTerminal.eof (some h) c).written
        = frames.map (fun d => "data: " ++ d ++ "\n\n")
          ++ ["data: " ++ h () ++ "\n\n", "data: [DONE]\n\n"]
      ∧ (responseStreamClient frames StreamTerminal.eof (some h) c).cache.responses
        = c.responses ++ frames.map (fun d => "data: " ++ d ++ "\n\n")
          ++ [h (), "data: [DONE]\n\n"]
      ∧ (responseStreamClient frames StreamTerminal.eof (some h) c).cache.noCache
        = c.noCache) := by
  constructor
  · unfold responseStreamClient
    rw [streamWriteFrames_spec]
    simp [ChatCacheProps.NoCache, ChatCacheProps.SetResponse]
  · intro hne
    unfold responseStreamClient
    rw [streamWriteFrames_spec]
    simp [ChatCacheProps.SetResponse, if_pos hne]

/-- Concrete instantiation of the C7 stream theorem: one frame, a
non-empty trailer, and both terminal signals. -/
theorem responseStreamClient_spec_witness :
    (responseStreamClient ["a"] (StreamTerminal.err "boom")
        (some (fun _ => "T")) ⟨[], false⟩).cache.noCache = true
    ∧ (responseStreamClient ["a"] StreamTerminal.eof
        (some (fun _ => "T")) ⟨[], false⟩).written
      = ["data: a\n\n", "data: T\n\n", "data: [DONE]\n\n"] := by
  have H := responseStreamClient_spec ["a"] "boom" (fun _ => "T") ⟨[], false⟩
  exact ⟨H.1.1, (H.2 (by decide)).1⟩

/-! ## Error delivery (`relayResponseWithErr`, src/relay/common.go
327–354) -/

/-- Modelled from the spec: `utils.MessageWithRequestId` is not under
`src/`; per §7 every error response embeds the request-correlation id in
its message as a `(request id: …)` suffix. -/
def MessageWithRequestId (message requestId : String) : String :=
  message ++ " (request id: " ++ requestId ++ ")"

/-- The balance/quota vocabulary (src/relay/common.go 329). -/
def quotaKeywords : List String := ["余额", "额度", "quota", "无可用渠道", "令牌"]

/-- Modelled from the spec: `utils.ContainsString` is not under `src/`;
whether the message matches the vocabulary, i.e. contains some keyword as
a substring. -/
def ContainsString (message : String) (keywords : List String) : Bool :=
  keywords.any (fun kw => strContains message kw)

/-- Scanner for one regex match body: drop characters up to and including
the first `)`; `none` when no `)` follows (so the pattern
`\(request id: [^\x29]+\)` cannot match). -/
def dropThroughParen : List Char → Option (List Char)
  | [] => none
  | c :: cs => if c = ')' then some cs else dropThroughParen cs

/-- The literal prefix of the `requestIdRegex` pattern. -/
def requestIdPrefixChars : List Char := "(request id: ".toList

/-- Fuel-bounded model of
`requestIdRegex.ReplaceAllString(message, "")` for the pattern
`\(request id: [^\x29]+\)` (src/relay/common.go 328): at each position,
if the literal prefix matches and at least one non-`)` character precedes
a closing `)`, the whole match is dropped; otherwise scanning advances
one character. -/
def stripRequestIdChars : Nat → List Char → List Char
  | 0, cs => cs
  | _ + 1, [] => []
  | fuel + 1, c :: cs =>
    if (c :: cs).take requestIdPrefixChars.length = requestIdPrefixChars then
      match (c :: cs).drop requestIdPrefixChars.length with
      | [] => c :: stripRequestIdChars fuel cs
      | r :: rs =>
        if r = ')' then c :: stripRequestIdChars fuel cs
        else
          match dropThroughParen (r :: rs) with
          | some after => stripRequestIdChars fuel after
          | none => c :: stripRequestIdChars fuel cs
    else c :: stripRequestIdChars fuel cs

/-- `requestIdRegex.ReplaceAllString(message, "")` on strings. -/
def requestIdRegexReplaceAll (message : String) : String :=
  String.mk (stripRequestIdChars message.length message.data)

/-- The generic saturation message substituted for quota errors
(src/relay/common.go 346). -/
def saturatedMessage : String := "上游负载已饱和，请稍后再试"

/-- The error response as delivered to the caller:
`c.JSON(statusCode, gin.H{"error": err.OpenAIError})`. -/
structure DeliveredError where
  statusCode : Nat
  error : OpenAIError

/-- Embedding of `relayResponseWithErr` (src/relay/common.go 332–354):
strip any pre-existing request-id tag, append the current request id,
then — only for the three gateway-internal error types — relabel to
`system_error` and, when the message matches the quota vocabulary,
substitute the generic saturation message and remap the status to 429. -/
def relayResponseWithErr (e : OpenAIErrorWithStatusCode) (requestId : String) :
    DeliveredError :=
  let statusCode := e.StatusCode
  let message :=
    if strContains e.Message "(request id:" then requestIdRegexReplaceAll e.Message
    else e.Message
  let message := MessageWithRequestId message requestId
  let triple : String × String × Nat :=
    if e.error.ErrType = "new_api_error" ∨ e.error.ErrType = "one_api_error"
        ∨ e.error.ErrType = "shell_api_error" then
      if ContainsString message quotaKeywords then
        ("system_error", saturatedMessage, 429)
      else ("system_error", message, statusCode)
    else (e.error.ErrType, message, statusCode)
  ⟨triple.2.2, ⟨triple.1, triple.2.1⟩⟩

/-- C8 is refuted as stated: an upstream error whose message matches the
quota vocabulary but whose type is not one of the three gateway-internal
types (here `insufficient_quota`) is delivered with its own message and
its own status code, not the generic saturation message and 429. -/
theorem relayResponseWithErr_quota_counterexample :
    ContainsString
      (OpenAIErrorWithStatusCode.Message ⟨⟨"insufficient_quota", "quota exceeded"⟩, 402, false⟩)
      quotaKeywords = true
    ∧ (relayResponseWithErr ⟨⟨"insufficient_quota", "quota exceeded"⟩, 402, false⟩ "r").statusCode
      = 402
    ∧ (relayResponseWithErr ⟨⟨"insufficient_quota", "quota exceeded"⟩, 402, false⟩ "r").error.Message
      = "quota exceeded (request id: r)" := by
  refine ⟨by decide, rfl, rfl⟩

/-- C8 amended: for upstream errors of the three gateway-internal types
(`new_api_error`, `one_api_error`, `shell_api_error`) whose message —
after any pre-existing `(request id: …)` tags are stripped and the
current request id is appended, exactly the normalization the code
performs before the vocabulary check (src/relay/common.go 335–345) —
matches the balance/quota vocabulary, the delivered response carries the
generic saturation message in place of the original message, status 429
in place of the original status, and type `system_error`. -/
theorem relayResponseWithErr_quota_rewrite (e : OpenAIErrorWithStatusCode)
    (requestId : String)
    (htype : e.error.ErrType = "new_api_error" ∨ e.error.ErrType = "one_api_error"
      ∨ e.error.ErrType = "shell_api_error")
    (hquota : ContainsString
      (MessageWithRequestId
        (if strContains e.Message "(request id:" then requestIdRegexReplaceAll e.Message
         else e.Message) requestId) quotaKeywords = true) :
    (relayResponseWithErr e requestId).statusCode = 429
    ∧ (relayResponseWithErr e requestId).error.Message = saturatedMessage
    ∧ (relayResponseWithErr e requestId).error.ErrType = "system_error" := by
  unfold relayResponseWithErr
  simp only [if_pos htype, hquota, if_true]
  exact ⟨trivial, trivial, trivial⟩

/-- Concrete instantiation of the amended C8 theorem: a `new_api_error`
mentioning `额度` is rewritten to the saturation message with 429. -/
theorem relayResponseWithErr_quota_rewrite_witness :
    (relayResponseWithErr ⟨⟨"new_api_error", "账户额度不足"⟩, 400, false⟩ "r").statusCode = 429
    ∧ (relayResponseWithErr ⟨⟨"new_api_error", "账户额度不足"⟩, 400, false⟩ "r").error.Message
      = saturatedMessage :=
  have H := relayResponseWithErr_quota_rewrite ⟨⟨"new_api_error", "账户额度不足"⟩, 400, false⟩ "r"
    (Or.inl rfl) (by decide)
  ⟨H.1, H.2.1⟩

/-! ## Request-scoped capture store
(src/common/hijack/context_response.go 45–140)

Go keys the process-wide map by the request's `context.Context` identity;
distinct in-flight requests carry distinct contexts, modelled as an
abstract decidable token (`Nat`).  The single mutex serialises the
operations, so each operation's effect is the sequential functional
semantics below; every operation is total, so no call can panic. -/

abbrev Ctx := Nat

/-- Embedding of `ContextStorage` (context_response.go 51–84): a
token → (key → value) two-level string map. -/
structure ContextStorage where
  data : List (Ctx × List (String × String))

/-- Embedding of `ContextStorage.Store`: ensure the token's inner map
exists, then write the key. -/
def ContextStorage.Store (cs : ContextStorage) (ctx : Ctx) (key value : String) :
    ContextStorage :=
  let ctxData :=
    match alistGet? cs.data ctx with
    | none => []
    | some d => d
  ⟨alistSet cs.data ctx (alistSet ctxData key value)⟩

/-- Embedding of `ContextStorage.Load`: `(value, ok)` with the zero value
`""` when the token or key is absent. -/
def ContextStorage.Load (cs : ContextStorage) (ctx : Ctx) (key : String) :
    String × Bool :=
  match alistGet? cs.data ctx with
  | some ctxData =>
    match alistGet? ctxData key with
    | some value => (value, true)
    | none => ("", false)
  | none => ("", false)

/-- Embedding of `ContextStorage.Delete`: remove the key and drop the
token's inner map entirely when it became empty. -/
def ContextStorage.Delete (cs : ContextStorage) (ctx : Ctx) (key : String) :
    ContextStorage :=
  match alistGet? cs.data ctx with
  | some ctxData =>
    let d := alistErase ctxData key
    if d.isEmpty then ⟨alistErase cs.data ctx⟩ else ⟨alistSet cs.data ctx d⟩
  | none => cs

/-- Embedding of `GetAndDeleteRequestBody` (context_response.go 134–140):
load, and delete only on a hit; returns the `(value, found)` pair and the
store after the call. -/
def GetAndDeleteRequestBody (cs : ContextStorage) (ctx : Ctx) :
    (String × Bool) × ContextStorage :=
  if (cs.Load ctx "request_body").2 then
    (cs.Load ctx "request_body", cs.Delete ctx "request_body")
  else (cs.Load ctx "request_body", cs)

/-- `hijack.ResponseData`; the Go field `Type` (a `ResponseType` string)
is `RType` here, `Content` is an `interface{}` value. -/
structure ResponseData where
  RType : String
  Content : GoVal

/-- Embedding of `GetAndDeleteFullResponse` (context_response.go
117–128).  `unmarshal` stands for the Go-library
`json.Unmarshal([]byte(jsonData), &responseData)`: `some` on success,
`none` on a decode error.  On a hit the entry is deleted before decoding,
so a corrupted entry is consumed and reported as `(none, false)`. -/
def GetAndDeleteFullResponse (unmarshal : String → Option ResponseData)
    (cs : ContextStorage) (ctx : Ctx) :
    (Option ResponseData × Bool) × ContextStorage :=
  if (cs.Load ctx "full_response").2 then
    match unmarshal (cs.Load ctx "full_response").1 with
    | some responseData => ((some responseData, true), cs.Delete ctx "full_response")
    | none => ((none, false), cs.Delete ctx "full_response")
  else ((none, false), cs)

/-- Embedding of `StoreFullResponse` (context_response.go 108–115);
`marshal` stands for the Go-library `json.Marshal` of the
`ResponseData`. -/
def StoreFullResponse (marshal : ResponseData → String) (cs : ContextStorage)
    (ctx : Ctx) (responseType : String) (content : GoVal) : ContextStorage :=
  cs.Store ctx "full_response" (marshal ⟨responseType, content⟩)

theorem contextStorage_load_delete_self (cs : ContextStorage) (ctx : Ctx)
    (key : String) : (cs.Delete ctx key).Load ctx key = ("", false) := by
  unfold ContextStorage.Delete ContextStorage.Load
  rcases hd : alistGet? cs.data ctx with _ | ctxData
  · rw [hd]
  · rcases he : (alistErase ctxData key).isEmpty with _ | _
    · simp only [he, Bool.false_eq_true, if_false, alistGet?_set_self,
        alistGet?_erase_self]
    · simp only [he, if_true, alistGet?_erase_self]

theorem contextStorage_load_delete_other (cs : ContextStorage) (ctx ctx' : Ctx)
    (key key' : String) (h : ctx' ≠ ctx) :
    (cs.Delete ctx key).Load ctx' key' = cs.Load ctx' key' := by
  unfold ContextStorage.Delete ContextStorage.Load
  rcases hd : alistGet? cs.data ctx with _ | ctxData
  · rfl
  · rcases he : (alistErase ctxData key).isEmpty with _ | _
    · simp only [he, Bool.false_eq_true, if_false, alistGet?_set_ne _ _ _ _ h]
    · simp only [he, if_true, alistGet?_erase_ne _ _ _ h]

/-- C9: a take-and-clear on a token with no stored entry returns
not-found and leaves the store unchanged — for both the request-body and
the full-response kind — (and, being total, cannot panic); after a
successful take-and-clear an immediately repeated one for the same token
and kind returns not-found, again for both kinds; and
store/take-and-clear operations on one token never change the value
observed for any other token. -/
theorem captureStore_spec (cs : ContextStorage) (tok tok' : Ctx)
    (k k' v : String) (unmarshal : String → Option ResponseData) :
    (alistGet? cs.data tok = none →
      GetAndDeleteRequestBody cs tok = (("", false), cs))
    ∧ (alistGet? cs.data tok = none →
      GetAndDeleteFullResponse unmarshal cs tok = ((none, false), cs))
    ∧ ((GetAndDeleteRequestBody cs tok).1.2 = true →
      (GetAndDeleteRequestBody (GetAndDeleteRequestBody cs tok).2 tok).1
        = ("", false))
    ∧ ((GetAndDeleteFullResponse unmarshal cs tok).1.2 = true →
      (GetAndDeleteFullResponse unmarshal
        (GetAndDeleteFullResponse unmarshal cs tok).2 tok).1
        = (none, false))
    ∧ (tok' ≠ tok →
      (cs.Store tok k v).Load tok' k' = cs.Load tok' k'
      ∧ ((GetAndDeleteRequestBody cs tok).2).Load tok' k' = cs.Load tok' k'
      ∧ ((GetAndDeleteFullResponse unmarshal cs tok).2).Load tok' k'
        = cs.Load tok' k') := by
  refine ⟨?_, ?_, ?_, ?_, ?_⟩
  · intro hnone
    have hload : cs.Load tok "request_body" = ("", false) := by
      unfold ContextStorage.Load
      rw [hnone]
    unfold GetAndDeleteRequestBody
    rw [hload]
    rfl
  · intro hnone
    have hload : cs.Load tok "full_response" = ("", false) := by
      unfold ContextStorage.Load
      rw [hnone]
    unfold GetAndDeleteFullResponse
    rw [hload]
    rfl
  · intro hhit
    rcases hfound : (cs.Load tok "request_body").2 with _ | _
    · exfalso
      unfold GetAndDeleteRequestBody at hhit
      simp [hfound] at hhit
    · have hstate : (GetAndDeleteRequestBody cs tok).2
          = cs.Delete tok "request_body" := by
        unfold GetAndDeleteRequestBody
        simp [hfound]
      rw [hstate]
      unfold GetAndDeleteRequestBody
      rw [contextStorage_load_delete_self]
      rfl
  · intro hhit
    rcases hfound : (cs.Load tok "full_response").2 with _ | _
    · exfalso
      unfold GetAndDeleteFullResponse at hhit
      simp [hfound] at hhit
    · have hstate : (GetAndDeleteFullResponse unmarshal cs tok).2
          = cs.Delete tok "full_response" := by
        unfold GetAndDeleteFullResponse
        simp only [hfound, if_true]
        rcases unmarshal (cs.Load tok "full_response").1 with _ | rd
        · rfl
        · rfl
      rw [hstate]
      unfold GetAndDeleteFullResponse
      rw [contextStorage_load_delete_self]
      rfl
  · intro hne
    refine ⟨?_, ?_, ?_⟩
    · unfold ContextStorage.Store ContextStorage.Load
      rw [alistGet?_set_ne _ _ _ _ hne]
    · rcases hfound : (cs.Load tok "request_body").2 with _ | _
      · have hstate : (GetAndDeleteRequestBody cs tok).2 = cs := by
          unfold GetAndDeleteRequestBody
          simp [hfound]
        rw [hstate]
      · have hstate : (GetAndDeleteRequestBody cs tok).2
            = cs.Delete tok "request_body" := by
          unfold GetAndDeleteRequestBody
          simp [hfound]
        rw [hstate]
        exact contextStorage_load_delete_other cs tok tok' _ k' hne
    · rcases hfound : (cs.Load tok "full_response").2 with _ | _
      · have hstate : (GetAndDeleteFullResponse unmarshal cs tok).2 = cs := by
          unfold GetAndDeleteFullResponse
          simp [hfound]
        rw [hstate]
      · have hstate : (GetAndDeleteFullResponse unmarshal cs tok).2
            = cs.Delete tok "full_response" := by
          unfold GetAndDeleteFullResponse
          simp only [hfound, if_true]
          rcases unmarshal (cs.Load tok "full_response").1 with _ | rd
          · rfl
          · rfl
        rw [hstate]
        exact contextStorage_load_delete_other cs tok tok' _ k' hne

/-- Concrete instantiation of the C9 capture-store theorem: an unknown
token is not-found for both kinds; a successful full-response take
followed by a repeat is not-found; taking token 1's body does not
disturb token 2's. -/
theorem captureStore_spec_witness :
    GetAndDeleteRequestBody ⟨[]⟩ 1 = (("", false), ⟨[]⟩)
    ∧ GetAndDeleteFullResponse (fun _ => some ⟨"json", GoVal.null⟩) ⟨[]⟩ 1
      = ((none, false), ⟨[]⟩)
    ∧ (GetAndDeleteFullResponse (fun _ => some ⟨"json", GoVal.null⟩)
        (GetAndDeleteFullResponse (fun _ => some ⟨"json", GoVal.null⟩)
          ⟨[(1, [("full_response", "J")])]⟩ 1).2 1).1 = (none, false)
    ∧ ((GetAndDeleteRequestBody ⟨[(1, [("request_body", "B1")]),
          (2, [("request_body", "B2")])]⟩ 1).2).Load 2 "request_body"
      = (ContextStorage.mk [(1, [("request_body", "B1")]),
          (2, [("request_body", "B2")])]).Load 2 "request_body" :=
  have H1 := captureStore_spec ⟨[]⟩ 1 2 "k" "k" "v"
    (fun _ => some ⟨"json", GoVal.null⟩)
  have H2 := captureStore_spec ⟨[(1, [("request_body", "B1")]),
    (2, [("request_body", "B2")])]⟩ 1 2 "k" "request_body" "v" (fun _ => none)
  have H3 := captureStore_spec ⟨[(1, [("full_response", "J")])]⟩ 1 2 "k" "k" "v"
    (fun _ => some ⟨"json", GoVal.null⟩)
  ⟨H1.1 rfl, H1.2.1 rfl, H3.2.2.2.1 rfl, (H2.2.2.2.2 (by decide)).2.1⟩

/-- C10: when the stored full-response value fails to unmarshal, the call
returns not-found `(none, false)` — the same result an absent entry
produces — yet the entry is deleted: a repeat call is also not-found, so
a corrupted entry is indistinguishable from one never stored. -/
theorem getAndDeleteFullResponse_corrupted (unmarshal : String → Option ResponseData)
    (cs : ContextStorage) (tok : Ctx) (s : String)
    (hload : cs.Load tok "full_response" = (s, true))
    (hdec : unmarshal s = none) :
    (GetAndDeleteFullResponse unmarshal cs tok).1 = (none, false)
    ∧ (GetAndDeleteFullResponse unmarshal cs tok).2 = cs.Delete tok "full_response"
    ∧ (GetAndDeleteFullResponse unmarshal
        (GetAndDeleteFullResponse unmarshal cs tok).2 tok).1 = (none, false)
    ∧ (GetAndDeleteFullResponse unmarshal ⟨[]⟩ tok).1 = (none, false) := by
  have hmain : GetAndDeleteFullResponse unmarshal cs tok
      = ((none, false), cs.Delete tok "full_response") := by
    unfold GetAndDeleteFullResponse
    simp [hload, hdec]
  refine ⟨by rw [hmain], by rw [hmain], ?_, rfl⟩
  rw [hmain]
  unfold GetAndDeleteFullResponse
  rw [contextStorage_load_delete_self]
  rfl

/-- Concrete instantiation of the C10 corrupted-entry theorem: a
`full_response` entry holding unparsable text is consumed and reported
not-found. -/
theorem getAndDeleteFullResponse_corrupted_witness :
    (GetAndDeleteFullResponse (fun _ => none)
        ⟨[(7, [("full_response", "garbage")])]⟩ 7).1 = (none, false)
    ∧ (GetAndDeleteFullResponse (fun _ => none)
        (GetAndDeleteFullResponse (fun _ => none)
          ⟨[(7, [("full_response", "garbage")])]⟩ 7).2 7).1 = (none, false) :=
  have H := getAndDeleteFullResponse_corrupted (fun _ => none)
    ⟨[(7, [("full_response", "garbage")])]⟩ 7 "garbage" rfl rfl
  ⟨H.1, H.2.2.1⟩

end OneHub
